import Mathlib

/-!
Shallow embedding of the UltimakerAsBraider head controller and its
configuration validation, together with theorems checking the
specification's claims against the code.

The controller (`src/braider.py`, class `Braider`) is modelled as a pure
state machine: every method becomes a function from the tracked state to a
pair of the new tracked state and the list of hardware commands written to
the serial connection during the call.  Coordinates are rationals (the
Python code uses floats; no claim depends on rounding).  The spool table is
a Python dict `str -> Optional[Tuple[float, float]]`, modelled as an
insertion-ordered association list.
-/

namespace Braid

/-- Coordinates of the carriage, in millimetres. -/
abbrev Pos := Rat × Rat

/-- Hardware commands written to the serial connection, one constructor per
distinct G-code line the Python code emits. -/
inductive Cmd where
  /-- G90: absolute positioning. -/
  | setAbsolute : Cmd
  /-- G1 F5000: set feed rate. -/
  | setFeedRate : Cmd
  /-- G28 Z: home the magnet axis. -/
  | homeZ : Cmd
  /-- G28 Za: the magnet-axis homing line the Plotter variant emits. -/
  | homeZa : Cmd
  /-- G28 X Y: home the carriage axes. -/
  | homeXY : Cmd
  /-- G1 X.. Y..: absolute move of the carriage. -/
  | moveXY (x y : Rat) : Cmd
  /-- G1 Z..: move the magnet axis. -/
  | moveZ (z : Rat) : Cmd
  /-- M300 S.. P..: audible tone with frequency and duration. -/
  | tone (freq dur : Rat) : Cmd
deriving DecidableEq, Repr

/-- Lookup in an insertion-ordered association list, mirroring
`self.spools[name]` on a Python dict (`none` corresponds to a KeyError). -/
def lookupKey (table : List (String × Option Pos)) (name : String) :
    Option (Option Pos) :=
  match table with
  | [] => none
  | (k, v) :: rest => if k = name then some v else lookupKey rest name

/-- Assignment `table[name] = v` on a Python dict: overwrite the entry when
the key is present, append it at the end when it is not (Python dicts are
insertion-ordered). -/
def setKey (table : List (String × Option Pos)) (name : String)
    (v : Option Pos) : List (String × Option Pos) :=
  match table with
  | [] => [(name, v)]
  | (k, w) :: rest =>
      if k = name then (k, v) :: rest else (k, w) :: setKey rest name v

/-- Tracked state of `Braider` (`src/braider.py`): the configuration fields
and the mirrored physical state the firmware does not report. -/
structure Braider where
  width : Rat
  height : Rat
  engage_travel_distance : Rat
  position : Pos
  magnet_is_engaged : Bool
  spools : List (String × Option Pos)
  currently_grabbed_spool : Option String
deriving DecidableEq, Repr

/-- Constructor plus `init` of `Braider`: the spool table starts all
unlearned, no spool is grabbed, and `init` homes the axes, leaving the
magnet disengaged and the position at the origin. -/
def mkBraider (width height engage_travel_distance : Rat)
    (spool_names : List String) : Braider × List Cmd :=
  ({ width := width
     height := height
     engage_travel_distance := engage_travel_distance
     position := (0, 0)
     magnet_is_engaged := false
     spools := spool_names.map (fun n => (n, none))
     currently_grabbed_spool := none },
   [Cmd.setAbsolute, Cmd.setFeedRate, Cmd.homeZ, Cmd.homeXY])

namespace Braider

/-- `Braider._clip_position`: clamp a target componentwise into
`[0, width] × [0, height]`. -/
def clip_position (s : Braider) (x y : Rat) : Pos :=
  (max 0 (min s.width x), max 0 (min s.height y))

/-- `Braider.move_to`: clip the target, send the move command, and store
the clipped target as the new position. -/
def move_to (s : Braider) (x y : Rat) : Braider × List Cmd :=
  let p := s.clip_position x y
  ({ s with position := p }, [Cmd.moveXY p.1 p.2])

/-- `Braider.move_to_relative`. -/
def move_to_relative (s : Braider) (x y : Rat) : Braider × List Cmd :=
  s.move_to (s.position.1 + x) (s.position.2 + y)

/-- `Braider.move_left` (default distance 1; callers pass 5). -/
def move_left (s : Braider) (distance : Rat) : Braider × List Cmd :=
  s.move_to_relative (-distance) 0

/-- `Braider.move_right`. -/
def move_right (s : Braider) (distance : Rat) : Braider × List Cmd :=
  s.move_to_relative distance 0

/-- `Braider.move_up`. -/
def move_up (s : Braider) (distance : Rat) : Braider × List Cmd :=
  s.move_to_relative 0 distance

/-- `Braider.move_down`. -/
def move_down (s : Braider) (distance : Rat) : Braider × List Cmd :=
  s.move_to_relative 0 (-distance)

/-- `Braider.beep`: sends the tone command and sleeps; no tracked state
changes. -/
def beep (s : Braider) (frequency duration : Rat) : Braider × List Cmd :=
  (s, [Cmd.tone frequency duration])

/-- `Braider.engage_magnet`: a no-op when already engaged, otherwise one
magnet-axis move and the transition to engaged. -/
def engage_magnet (s : Braider) : Braider × List Cmd :=
  if s.magnet_is_engaged then (s, [])
  else ({ s with magnet_is_engaged := true },
        [Cmd.moveZ s.engage_travel_distance])

/-- `Braider.disengage_magnet`: home the magnet axis unless already
disengaged; then, regardless, if a spool is grabbed record the current
position as that spool's learned position and clear the grab. -/
def disengage_magnet (s : Braider) : Braider × List Cmd :=
  let r :=
    if s.magnet_is_engaged then
      (({ s with magnet_is_engaged := false } : Braider), [Cmd.homeZ])
    else (s, ([] : List Cmd))
  match r.1.currently_grabbed_spool with
  | some sp =>
      ({ r.1 with
          spools := setKey r.1.spools sp (some r.1.position)
          currently_grabbed_spool := none }, r.2)
  | none => r

/-- `Braider.grab`: reads the learned position of the spool first.  When it
is unlearned it teaches the current position (unless another spool is
held, in which case only the error chime is emitted); when it is learned
it disengages, moves there and re-engages.  A spool name absent from the
table raises a KeyError in Python before any state change; that case is
modelled as leaving the state unchanged. -/
def grab (s : Braider) (spool : String) : Braider × List Cmd :=
  match lookupKey s.spools spool with
  | none => (s, [])
  | some none =>
      match s.currently_grabbed_spool with
      | none =>
          let s1 : Braider := { s with spools := setKey s.spools spool (some s.position) }
          let r2 := s1.engage_magnet
          let r3 := r2.1.beep 440 200
          let r4 := r3.1.beep 640 200
          ({ r4.1 with currently_grabbed_spool := some spool },
           r2.2 ++ r3.2 ++ r4.2)
      | some _ =>
          let r1 := s.beep 660 200
          let r2 := r1.1.beep 660 200
          (r2.1, r1.2 ++ r2.2)
  | some (some p) =>
      let r1 := s.disengage_magnet
      let r2 := r1.1.move_to p.1 p.2
      let r3 := r2.1.engage_magnet
      let r4 := r3.1.beep 440 200
      ({ r4.1 with currently_grabbed_spool := some spool },
       r1.2 ++ r2.2 ++ r3.2 ++ r4.2)

end Braider

/-- Operations a caller can invoke on the controller after construction;
these are the methods the operator surface and the pattern runner use. -/
inductive Op where
  | move_to (x y : Rat) : Op
  | move_to_relative (x y : Rat) : Op
  | move_left (d : Rat) : Op
  | move_right (d : Rat) : Op
  | move_up (d : Rat) : Op
  | move_down (d : Rat) : Op
  | engage : Op
  | disengage : Op
  | grab (spool : String) : Op
  | beep (f d : Rat) : Op
deriving DecidableEq, Repr

/-- Dispatch one operation on a `Braider`. -/
def stepB (s : Braider) : Op → Braider × List Cmd
  | Op.move_to x y => s.move_to x y
  | Op.move_to_relative x y => s.move_to_relative x y
  | Op.move_left d => s.move_left d
  | Op.move_right d => s.move_right d
  | Op.move_up d => s.move_up d
  | Op.move_down d => s.move_down d
  | Op.engage => s.engage_magnet
  | Op.disengage => s.disengage_magnet
  | Op.grab sp => s.grab sp
  | Op.beep f d => s.beep f d

/-- Run a sequence of operations on a `Braider`, keeping only the state. -/
def runB (s : Braider) : List Op → Braider
  | [] => s
  | op :: rest => runB (stepB s op).1 rest

/-- A concrete controller state used to instantiate hypotheses: the state
right after construction with the default parameters of `braider.py`. -/
def sampleBraider : Braider := (mkBraider 200 200 15 ["R", "G", "B"]).1

/-! ### Helper lemmas about the dictionary model and the state projections -/

theorem lookupKey_setKey_self (table : List (String × Option Pos))
    (name : String) (v : Option Pos) :
    lookupKey (setKey table name v) name = some v := by
  induction table with
  | nil => simp [setKey, lookupKey]
  | cons kv rest ih =>
      by_cases h : kv.1 = name <;> simp [setKey, lookupKey, h, ih]

theorem beep_fst (s : Braider) (f d : Rat) : (s.beep f d).1 = s := rfl

theorem move_to_fst (s : Braider) (x y : Rat) :
    (s.move_to x y).1 = { s with position := s.clip_position x y } := rfl

theorem engage_magnet_fst (s : Braider) :
    s.engage_magnet.1 = { s with magnet_is_engaged := true } := by
  cases s with
  | mk w h e p m sp g =>
      cases m <;> simp [Braider.engage_magnet]

theorem disengage_magnet_fst_none (s : Braider)
    (h : s.currently_grabbed_spool = none) :
    s.disengage_magnet.1 = { s with magnet_is_engaged := false } := by
  cases s with
  | mk w ht e p m sp g =>
      cases m <;> simp_all [Braider.disengage_magnet]

theorem disengage_magnet_fst_some (s : Braider) (sp : String)
    (h : s.currently_grabbed_spool = some sp) :
    s.disengage_magnet.1 =
      { s with magnet_is_engaged := false
               spools := setKey s.spools sp (some s.position)
               currently_grabbed_spool := none } := by
  cases s with
  | mk w ht e p m spl g =>
      cases m <;> simp_all [Braider.disengage_magnet]

/-- A state in which `R` has been taught at the origin and released, the
carriage moved to (5, 7), and `G` taught and held there. -/
def braiderAfterTeaching : Braider :=
  ((((sampleBraider.grab "R").1.disengage_magnet).1.move_to 5 7).1.grab
    "G").1

/-- A state with `R` held while the magnet is (abnormally) already
disengaged, to exercise the magnet-state-independent part of the release
protocol. -/
def braiderHeldDisengaged : Braider :=
  { (sampleBraider.grab "R").1 with magnet_is_engaged := false }

/-! ### Claim theorems for the grab and disengage protocols -/

/-- C1: for a spool `sp` whose learned position is unlearned (`none`),
`grab` with no spool held teaches the pre-call position, engages the
magnet and marks `sp` held; with some spool held it leaves the whole
tracked state unchanged and emits only the two-tone 660 Hz error chime. -/
theorem grab_unlearned_teaches_or_refuses (s : Braider) (sp : String)
    (hl : lookupKey s.spools sp = some none) :
    (s.currently_grabbed_spool = none →
      lookupKey (s.grab sp).1.spools sp = some (some s.position) ∧
      (s.grab sp).1.magnet_is_engaged = true ∧
      (s.grab sp).1.currently_grabbed_spool = some sp) ∧
    (∀ t, s.currently_grabbed_spool = some t →
      (s.grab sp).1 = s ∧
      (s.grab sp).2 = [Cmd.tone 660 200, Cmd.tone 660 200]) := by
  constructor
  · intro hg
    simp only [Braider.grab, hl, hg, beep_fst, engage_magnet_fst]
    refine ⟨lookupKey_setKey_self _ _ _, by trivial, by trivial⟩
  · intro t hg
    simp only [Braider.grab, hl, hg, beep_fst, Braider.beep]
    exact ⟨by trivial, by trivial⟩

/-- Witness for C1: from the freshly constructed controller, grabbing the
unlearned spool `R` teaches the origin and holds `R`; grabbing the
unlearned spool `G` right afterwards is refused with the 660 Hz chime and
changes nothing. -/
theorem grab_unlearned_teaches_or_refuses_witness :
    lookupKey (sampleBraider.grab "R").1.spools "R" =
      some (some sampleBraider.position) ∧
    (sampleBraider.grab "R").1.magnet_is_engaged = true ∧
    (sampleBraider.grab "R").1.currently_grabbed_spool = some "R" ∧
    ((sampleBraider.grab "R").1.grab "G").1 = (sampleBraider.grab "R").1 ∧
    ((sampleBraider.grab "R").1.grab "G").2 =
      [Cmd.tone 660 200, Cmd.tone 660 200] := by
  have h1 :=
    (grab_unlearned_teaches_or_refuses sampleBraider "R" (by decide)).1
      (by decide)
  have h2 :=
    (grab_unlearned_teaches_or_refuses (sampleBraider.grab "R").1 "G"
      (by decide)).2 "R" (by decide)
  exact ⟨h1.1, h1.2.1, h1.2.2, h2.1, h2.2⟩

/-- C2: for a spool `sp` whose learned position is a known `p`, `grab`
runs disengage, then the move to `p`, then engage, in that order; it
finishes holding `sp` with the magnet engaged, a previously held spool
`t` gets its learned position overwritten with the position current at
the start of the call, and when `p` is in bounds the final position is
exactly `p`. -/
theorem grab_known_release_move_engage (s : Braider) (sp : String)
    (p : Pos) (hl : lookupKey s.spools sp = some (some p)) :
    (s.grab sp =
      (let r1 := s.disengage_magnet
       let r2 := r1.1.move_to p.1 p.2
       let r3 := r2.1.engage_magnet
       let r4 := r3.1.beep 440 200
       ({ r4.1 with currently_grabbed_spool := some sp },
        r1.2 ++ r2.2 ++ r3.2 ++ r4.2))) ∧
    (s.grab sp).1.currently_grabbed_spool = some sp ∧
    (s.grab sp).1.magnet_is_engaged = true ∧
    (∀ t, s.currently_grabbed_spool = some t →
      lookupKey (s.grab sp).1.spools t = some (some s.position)) ∧
    (0 ≤ p.1 → p.1 ≤ s.width → 0 ≤ p.2 → p.2 ≤ s.height →
      (s.grab sp).1.position = p) := by
  refine ⟨by simp only [Braider.grab, hl], ?_, ?_, ?_, ?_⟩
  · simp only [Braider.grab, hl, beep_fst, engage_magnet_fst]
  · simp only [Braider.grab, hl, beep_fst, engage_magnet_fst]
  · intro t hg
    simp only [Braider.grab, hl, beep_fst, engage_magnet_fst, move_to_fst,
      disengage_magnet_fst_some s t hg]
    exact lookupKey_setKey_self _ _ _
  · intro h1 h2 h3 h4
    have hpos : s.disengage_magnet.1.width = s.width ∧
        s.disengage_magnet.1.height = s.height := by
      cases hg : s.currently_grabbed_spool with
      | none => rw [disengage_magnet_fst_none s hg]; exact ⟨rfl, rfl⟩
      | some t => rw [disengage_magnet_fst_some s t hg]; exact ⟨rfl, rfl⟩
    simp only [Braider.grab, hl, beep_fst, engage_magnet_fst, move_to_fst]
    simp only [Braider.clip_position, hpos.1, hpos.2]
    rw [min_eq_right h2, max_eq_right h1, min_eq_right h4, max_eq_right h3]

/-- Witness for C2: after teaching `R` at the origin, releasing, moving to
(5, 7) and teaching `G` there, grabbing the known spool `R` ends holding
`R` at the origin with the magnet engaged, and `G`'s learned position is
overwritten with (5, 7), the position at the start of that grab. -/
theorem grab_known_release_move_engage_witness :
    (braiderAfterTeaching.grab "R").1.currently_grabbed_spool = some "R" ∧
    (braiderAfterTeaching.grab "R").1.magnet_is_engaged = true ∧
    lookupKey (braiderAfterTeaching.grab "R").1.spools "G" =
      some (some braiderAfterTeaching.position) ∧
    (braiderAfterTeaching.grab "R").1.position = ((0 : Rat), (0 : Rat)) := by
  have h := grab_known_release_move_engage braiderAfterTeaching "R"
    ((0 : Rat), (0 : Rat)) (by decide)
  exact ⟨h.2.1, h.2.2.1, h.2.2.2.1 "G" (by decide),
    h.2.2.2.2 (by decide) (by decide) (by decide) (by decide)⟩

/-- C3: disengaging while a spool `sp` is held records the current
position as `sp`'s learned position and clears the held spool, whatever
the magnet state was, and does not move the carriage. -/
theorem disengage_release_learns (s : Braider) (sp : String)
    (h : s.currently_grabbed_spool = some sp) :
    lookupKey s.disengage_magnet.1.spools sp = some (some s.position) ∧
    s.disengage_magnet.1.currently_grabbed_spool = none ∧
    s.disengage_magnet.1.position = s.position := by
  rw [disengage_magnet_fst_some s sp h]
  exact ⟨lookupKey_setKey_self _ _ _, rfl, rfl⟩

/-- Witness for C3, covering both magnet states: with `R` held and the
magnet engaged (right after teaching `R`), and with `R` held and the
magnet somehow already disengaged, disengage records the position and
clears the hold. -/
theorem disengage_release_learns_witness :
    lookupKey (sampleBraider.grab "R").1.disengage_magnet.1.spools "R" =
      some (some (sampleBraider.grab "R").1.position) ∧
    (sampleBraider.grab "R").1.disengage_magnet.1.currently_grabbed_spool =
      none ∧
    braiderHeldDisengaged.disengage_magnet.1.currently_grabbed_spool =
      none ∧
    lookupKey braiderHeldDisengaged.disengage_magnet.1.spools "R" =
      some (some braiderHeldDisengaged.position) := by
  have h1 := disengage_release_learns (sampleBraider.grab "R").1 "R"
    (by decide)
  have h2 := disengage_release_learns braiderHeldDisengaged "R" (by decide)
  exact ⟨h1.1, h1.2.1, h2.2.1, h2.1⟩

/-! ### The held-implies-engaged invariant (C4) -/

/-- A spool is held only while the magnet is engaged. -/
def HeldImpliesEngaged (s : Braider) : Prop :=
  s.currently_grabbed_spool.isSome = true → s.magnet_is_engaged = true

theorem disengage_magnet_grabbed_none (s : Braider) :
    s.disengage_magnet.1.currently_grabbed_spool = none := by
  cases hg : s.currently_grabbed_spool with
  | none => rw [disengage_magnet_fst_none s hg]; exact hg
  | some sp => rw [disengage_magnet_fst_some s sp hg]

theorem stepB_heldImpliesEngaged (s : Braider) (op : Op)
    (h : HeldImpliesEngaged s) : HeldImpliesEngaged (stepB s op).1 := by
  cases op with
  | move_to x y => exact h
  | move_to_relative x y => exact h
  | move_left d => exact h
  | move_right d => exact h
  | move_up d => exact h
  | move_down d => exact h
  | beep f d => exact h
  | engage =>
      intro _
      simp only [stepB, engage_magnet_fst]
  | disengage =>
      intro hg
      rw [show (stepB s Op.disengage).1 = s.disengage_magnet.1 from rfl,
        disengage_magnet_grabbed_none s] at hg
      simp at hg
  | grab sp =>
      cases hl : lookupKey s.spools sp with
      | none =>
          intro hg
          simp only [stepB, Braider.grab, hl] at hg ⊢
          exact h hg
      | some v =>
          cases v with
          | none =>
              cases hgr : s.currently_grabbed_spool with
              | none =>
                  intro _
                  simp only [stepB, Braider.grab, hl, hgr, beep_fst,
                    engage_magnet_fst]
              | some t =>
                  have hstate : (stepB s (Op.grab sp)).1 = s := by
                    simp only [stepB, Braider.grab, hl, hgr, beep_fst,
                      Braider.beep]
                  rw [HeldImpliesEngaged, hstate]
                  exact h
          | some p =>
              intro _
              simp only [stepB, Braider.grab, hl, beep_fst,
                engage_magnet_fst]

theorem runB_heldImpliesEngaged (s : Braider) (ops : List Op)
    (h : HeldImpliesEngaged s) : HeldImpliesEngaged (runB s ops) := by
  induction ops generalizing s with
  | nil => exact h
  | cons op rest ih => exact ih _ (stepB_heldImpliesEngaged s op h)

/-- C4: after any sequence of operations from the freshly initialized
controller, a spool is held only if the magnet is engaged. -/
theorem held_only_if_engaged (w h et : Rat) (names : List String)
    (ops : List Op)
    (hg : (runB (mkBraider w h et names).1
      ops).currently_grabbed_spool.isSome = true) :
    (runB (mkBraider w h et names).1 ops).magnet_is_engaged = true := by
  refine runB_heldImpliesEngaged (mkBraider w h et names).1 ops ?_ hg
  intro h0
  simp [mkBraider] at h0

/-- Witness for C4: after grabbing the unlearned spool `R` from the fresh
controller a spool is held, and the invariant yields an engaged magnet. -/
theorem held_only_if_engaged_witness :
    (runB (mkBraider 200 200 15 ["R", "G", "B"]).1
      [Op.grab "R"]).currently_grabbed_spool.isSome = true ∧
    (runB (mkBraider 200 200 15 ["R", "G", "B"]).1
      [Op.grab "R"]).magnet_is_engaged = true :=
  ⟨by decide,
   held_only_if_engaged 200 200 15 ["R", "G", "B"] [Op.grab "R"] (by decide)⟩

/-! ### Clamped moves and the position-in-bounds invariant (C5) -/

/-- The stored position lies in `[0, width] × [0, height]`. -/
def InBounds (s : Braider) : Prop :=
  0 ≤ s.position.1 ∧ s.position.1 ≤ s.width ∧
  0 ≤ s.position.2 ∧ s.position.2 ≤ s.height

/-- Strengthened invariant carrying the nonnegativity of the configured
dimensions through the induction. -/
def PosInv (s : Braider) : Prop :=
  0 ≤ s.width ∧ 0 ≤ s.height ∧ InBounds s

theorem clip_position_bounds (s : Braider) (x y : Rat) (hw : 0 ≤ s.width)
    (hh : 0 ≤ s.height) :
    0 ≤ (s.clip_position x y).1 ∧ (s.clip_position x y).1 ≤ s.width ∧
    0 ≤ (s.clip_position x y).2 ∧ (s.clip_position x y).2 ≤ s.height :=
  ⟨le_max_left 0 _, max_le hw (min_le_left _ _),
   le_max_left 0 _, max_le hh (min_le_left _ _)⟩

theorem move_to_posInv (s : Braider) (x y : Rat) (h : PosInv s) :
    PosInv (s.move_to x y).1 := by
  obtain ⟨hw, hh, _⟩ := h
  rw [move_to_fst]
  exact ⟨hw, hh, clip_position_bounds s x y hw hh⟩

theorem stepB_posInv (s : Braider) (op : Op) (h : PosInv s) :
    PosInv (stepB s op).1 := by
  cases op with
  | move_to x y => exact move_to_posInv s x y h
  | move_to_relative x y => exact move_to_posInv s _ _ h
  | move_left d => exact move_to_posInv s _ _ h
  | move_right d => exact move_to_posInv s _ _ h
  | move_up d => exact move_to_posInv s _ _ h
  | move_down d => exact move_to_posInv s _ _ h
  | beep f d => exact h
  | engage =>
      show PosInv s.engage_magnet.1
      rw [engage_magnet_fst]
      exact h
  | disengage =>
      show PosInv s.disengage_magnet.1
      cases hg : s.currently_grabbed_spool with
      | none => rw [disengage_magnet_fst_none s hg]; exact h
      | some sp => rw [disengage_magnet_fst_some s sp hg]; exact h
  | grab sp =>
      show PosInv (s.grab sp).1
      cases hl : lookupKey s.spools sp with
      | none => simp only [Braider.grab, hl]; exact h
      | some v =>
          cases v with
          | none =>
              cases hgr : s.currently_grabbed_spool with
              | none =>
                  simp only [Braider.grab, hl, hgr, beep_fst,
                    engage_magnet_fst]
                  exact h
              | some t =>
                  simp only [Braider.grab, hl, hgr, beep_fst, Braider.beep]
                  exact h
          | some p =>
              have hd : PosInv s.disengage_magnet.1 := by
                cases hg : s.currently_grabbed_spool with
                | none => rw [disengage_magnet_fst_none s hg]; exact h
                | some t => rw [disengage_magnet_fst_some s t hg]; exact h
              simp only [Braider.grab, hl, beep_fst, engage_magnet_fst,
                move_to_fst]
              exact ⟨hd.1, hd.2.1,
                clip_position_bounds s.disengage_magnet.1 p.1 p.2 hd.1
                  hd.2.1⟩

theorem runB_posInv (s : Braider) (ops : List Op) (h : PosInv s) :
    PosInv (runB s ops) := by
  induction ops generalizing s with
  | nil => exact h
  | cons op rest ih => exact ih _ (stepB_posInv s op h)

/-- C5: `move_to` never rejects a target — it always stores the
componentwise clamp of the request into `[0, width] × [0, height]` — and
consequently, for nonnegative configured dimensions, the stored position
stays in bounds after every operation sequence from the initialized
state. -/
theorem move_to_clamps_and_stays_in_bounds :
    (∀ (s : Braider) (x y : Rat),
      (s.move_to x y).1.position =
        (max 0 (min s.width x), max 0 (min s.height y))) ∧
    (∀ (w h et : Rat) (names : List String) (ops : List Op),
      0 ≤ w → 0 ≤ h → InBounds (runB (mkBraider w h et names).1 ops)) := by
  constructor
  · intro s x y
    rfl
  · intro w h et names ops hw hh
    exact (runB_posInv (mkBraider w h et names).1 ops
      ⟨hw, hh, le_refl 0, hw, le_refl 0, hh⟩).2.2

/-- Witness for C5: the out-of-range request (300, -5) on the default
controller is clamped to (200, 0), and the position after running that
move from the initialized state is in bounds. -/
theorem move_to_clamps_and_stays_in_bounds_witness :
    (sampleBraider.move_to 300 (-5)).1.position = ((200 : Rat), (0 : Rat)) ∧
    InBounds (runB (mkBraider 200 200 15 ["R", "G", "B"]).1
      [Op.move_to 300 (-5)]) := by
  constructor
  · rw [move_to_clamps_and_stays_in_bounds.1 sampleBraider 300 (-5)]
    decide
  · exact move_to_clamps_and_stays_in_bounds.2 200 200 15 ["R", "G", "B"]
      [Op.move_to 300 (-5)] (by decide) (by decide)

/-! ### Idempotence of engage and disengage (C6) -/

theorem disengage_magnet_snd (s : Braider) :
    s.disengage_magnet.2 = if s.magnet_is_engaged then [Cmd.homeZ] else [] := by
  cases hm : s.magnet_is_engaged <;>
    cases hg : s.currently_grabbed_spool <;>
      simp [Braider.disengage_magnet, hm, hg]

theorem engage_magnet_snd (s : Braider) :
    s.engage_magnet.2 =
      if s.magnet_is_engaged then []
      else [Cmd.moveZ s.engage_travel_distance] := by
  cases hm : s.magnet_is_engaged <;> simp [Braider.engage_magnet, hm]

/-- Counterexample for C6 as stated: from the reachable state obtained by
engaging the magnet once after initialization, two further successive
`engage_magnet` calls issue zero hardware commands, not exactly one. -/
theorem engage_twice_not_always_one_command :
    ¬ (((runB sampleBraider [Op.engage]).engage_magnet.2 ++
        (runB sampleBraider [Op.engage]).engage_magnet.1.engage_magnet.2).length
       = 1) := by decide

/-- C6 amended: for every state, the second of two successive
`engage_magnet` (respectively `disengage_magnet`) calls is a pure no-op
(same state, no hardware command), and the pair issues exactly one
hardware command precisely when the first call actually transitions the
magnet (engage from disengaged, disengage from engaged), and zero
otherwise. -/
theorem engage_disengage_second_call_noop (s : Braider) :
    s.engage_magnet.1.engage_magnet = (s.engage_magnet.1, []) ∧
    s.disengage_magnet.1.disengage_magnet = (s.disengage_magnet.1, []) ∧
    s.engage_magnet.2.length = (if s.magnet_is_engaged then 0 else 1) ∧
    s.disengage_magnet.2.length = (if s.magnet_is_engaged then 1 else 0) := by
  refine ⟨?_, ?_, ?_, ?_⟩
  · rw [engage_magnet_fst]
    simp [Braider.engage_magnet]
  · have hg := disengage_magnet_grabbed_none s
    have hm : s.disengage_magnet.1.magnet_is_engaged = false := by
      cases h : s.currently_grabbed_spool with
      | none => rw [disengage_magnet_fst_none s h]
      | some sp => rw [disengage_magnet_fst_some s sp h]
    generalize hd : s.disengage_magnet.1 = d at hg hm ⊢
    simp [Braider.disengage_magnet, hm, hg]
  · rw [engage_magnet_snd]
    cases s.magnet_is_engaged <;> simp
  · rw [disengage_magnet_snd]
    cases s.magnet_is_engaged <;> simp

/-! ### Configuration validation (`src/config_loading.py`) -/

/-- Failure reasons of configuration validation; the Python code raises a
`ValueError` with a distinguishing message at each of these sites. -/
inductive ValidationError where
  | missingSpools : ValidationError
  | invalidSpoolName : ValidationError
  | missingPlaces : ValidationError
  | invalidPlaceName : ValidationError
  | malformedCommand : ValidationError
  | unknownSpoolReference : ValidationError
  | unknownPlaceReference : ValidationError
  | invalidRepeatCount : ValidationError
deriving DecidableEq, Repr

/-- In-memory configuration document (config.yaml): spool identifiers,
place identifiers each mapped to an optional learned position, an
optional pattern whose entries are lists checked for length two, and an
optional repeat count.  `none` on the first two fields models a null
entry in the document. -/
structure Config where
  spool_names : Option (List String)
  places : Option (List (String × Option Pos))
  pattern : Option (List (List String))
  repeats : Option Int
deriving DecidableEq, Repr

def uppercaseLetters : List Char := "ABCDEFGHIJKLMNOPQRSTUVWXYZ".toList

def digitChars : List Char := "1234567890".toList

/-- The per-spool-name loop of `check_config_for_inconsistencies`: length
must be 1 and the character must occur in the uppercase alphabet. -/
def checkSpoolNames : List String → Except ValidationError Unit
  | [] => Except.ok ()
  | n :: rest =>
      if n.length ≠ 1 then Except.error ValidationError.invalidSpoolName
      else if ¬ (n.toList.all (fun c => uppercaseLetters.contains c)) then
        Except.error ValidationError.invalidSpoolName
      else checkSpoolNames rest

/-- The per-place-name loop: length must be 1 and the character must be a
decimal digit. -/
def checkPlaceNames : List String → Except ValidationError Unit
  | [] => Except.ok ()
  | p :: rest =>
      if p.length ≠ 1 then Except.error ValidationError.invalidPlaceName
      else if ¬ (p.toList.all (fun c => digitChars.contains c)) then
        Except.error ValidationError.invalidPlaceName
      else checkPlaceNames rest

/-- The per-pattern-entry loop: each command must be a two-element pair
whose spool and place are declared. -/
def checkPatternEntries (ns ps : List String) :
    List (List String) → Except ValidationError Unit
  | [] => Except.ok ()
  | cmd :: rest =>
      match cmd with
      | [spool, place] =>
          if ¬ ns.contains spool then
            Except.error ValidationError.unknownSpoolReference
          else if ¬ ps.contains place then
            Except.error ValidationError.unknownPlaceReference
          else checkPatternEntries ns ps rest
      | _ => Except.error ValidationError.malformedCommand

/-- `check_config_for_inconsistencies` (`src/config_loading.py`): spool
names, then place names, then the optional pattern, then the optional
repeat count, stopping at the first failure. -/
def check_config_for_inconsistencies (c : Config) :
    Except ValidationError Unit :=
  match c.spool_names with
  | none => Except.error ValidationError.missingSpools
  | some ns =>
      match checkSpoolNames ns with
      | Except.error e => Except.error e
      | Except.ok _ =>
          match c.places with
          | none => Except.error ValidationError.missingPlaces
          | some pls =>
              match checkPlaceNames (pls.map Prod.fst) with
              | Except.error e => Except.error e
              | Except.ok _ =>
                  match (match c.pattern with
                         | some pat =>
                             checkPatternEntries ns (pls.map Prod.fst) pat
                         | none => Except.ok ()) with
                  | Except.error e => Except.error e
                  | Except.ok _ =>
                      match c.repeats with
                      | some r =>
                          if r < 0 then
                            Except.error ValidationError.invalidRepeatCount
                          else Except.ok ()
                      | none => Except.ok ()

/-- A spool identifier the spec accepts: exactly one uppercase Latin
letter. -/
def isGoodSpoolName (n : String) : Bool :=
  n.length = 1 && n.toList.all (fun c => uppercaseLetters.contains c)

/-- A place identifier the spec accepts: exactly one decimal digit. -/
def isGoodPlaceName (p : String) : Bool :=
  p.length = 1 && p.toList.all (fun c => digitChars.contains c)

/-- A pattern entry the spec accepts: a two-element pair of declared
identifiers. -/
def isGoodPatternEntry (ns ps : List String) (e : List String) : Bool :=
  match e with
  | [spool, place] => ns.contains spool && ps.contains place
  | _ => false

/-- An optional pattern all of whose entries are acceptable. -/
def goodPattern (ns ps : List String) : Option (List (List String)) → Bool
  | none => true
  | some pat => pat.all (isGoodPatternEntry ns ps)

/-- An optional repeat count that is absent or nonnegative. -/
def goodRepeats : Option Int → Bool
  | none => true
  | some r => decide (0 ≤ r)

theorem checkSpoolNames_ok (l : List String)
    (h : l.all isGoodSpoolName = true) :
    checkSpoolNames l = Except.ok () := by
  induction l with
  | nil => rfl
  | cons n rest ih =>
      rw [List.all_cons, Bool.and_eq_true] at h
      have h' := h.1
      simp only [isGoodSpoolName, Bool.and_eq_true, decide_eq_true_eq] at h'
      rw [checkSpoolNames, if_neg (by simp [h'.1]),
        if_neg (not_not_intro h'.2)]
      exact ih h.2

theorem checkSpoolNames_err (l : List String)
    (h : l.all isGoodSpoolName = false) :
    checkSpoolNames l = Except.error ValidationError.invalidSpoolName := by
  induction l with
  | nil => simp at h
  | cons n rest ih =>
      by_cases h1 : n.length = 1
      · by_cases h2 :
            n.toList.all (fun c => uppercaseLetters.contains c) = true
        · have hg : isGoodSpoolName n = true := by
            simp only [isGoodSpoolName, Bool.and_eq_true, decide_eq_true_eq]
            exact ⟨h1, h2⟩
          rw [List.all_cons, hg, Bool.true_and] at h
          rw [checkSpoolNames, if_neg (by simp [h1]),
            if_neg (not_not_intro h2)]
          exact ih h
        · rw [checkSpoolNames, if_neg (by simp [h1]), if_pos h2]
      · rw [checkSpoolNames, if_pos h1]

theorem checkPlaceNames_ok (l : List String)
    (h : l.all isGoodPlaceName = true) :
    checkPlaceNames l = Except.ok () := by
  induction l with
  | nil => rfl
  | cons p rest ih =>
      rw [List.all_cons, Bool.and_eq_true] at h
      have h' := h.1
      simp only [isGoodPlaceName, Bool.and_eq_true, decide_eq_true_eq] at h'
      rw [checkPlaceNames, if_neg (by simp [h'.1]),
        if_neg (not_not_intro h'.2)]
      exact ih h.2

theorem checkPlaceNames_err (l : List String)
    (h : l.all isGoodPlaceName = false) :
    checkPlaceNames l = Except.error ValidationError.invalidPlaceName := by
  induction l with
  | nil => simp at h
  | cons p rest ih =>
      by_cases h1 : p.length = 1
      · by_cases h2 : p.toList.all (fun c => digitChars.contains c) = true
        · have hg : isGoodPlaceName p = true := by
            simp only [isGoodPlaceName, Bool.and_eq_true, decide_eq_true_eq]
            exact ⟨h1, h2⟩
          rw [List.all_cons, hg, Bool.true_and] at h
          rw [checkPlaceNames, if_neg (by simp [h1]),
            if_neg (not_not_intro h2)]
          exact ih h
        · rw [checkPlaceNames, if_neg (by simp [h1]), if_pos h2]
      · rw [checkPlaceNames, if_pos h1]

theorem checkPatternEntries_skip_good (ns ps : List String)
    (pre l : List (List String))
    (h : pre.all (isGoodPatternEntry ns ps) = true) :
    checkPatternEntries ns ps (pre ++ l) = checkPatternEntries ns ps l := by
  induction pre with
  | nil => rfl
  | cons e pre' ih =>
      rw [List.all_cons, Bool.and_eq_true] at h
      obtain ⟨he, hpre⟩ := h
      cases e with
      | nil => simp [isGoodPatternEntry] at he
      | cons a t =>
          cases t with
          | nil => simp [isGoodPatternEntry] at he
          | cons b t2 =>
              cases t2 with
              | nil =>
                  have he' : a ∈ ns ∧ b ∈ ps := by
                    simpa [isGoodPatternEntry] using he
                  simp [checkPatternEntries, he'.1, he'.2, ih hpre]
              | cons x t3 => simp [isGoodPatternEntry] at he

theorem checkPatternEntries_ok_iff (ns ps : List String)
    (l : List (List String)) :
    checkPatternEntries ns ps l = Except.ok () ↔
      l.all (isGoodPatternEntry ns ps) = true := by
  induction l with
  | nil => simp [checkPatternEntries]
  | cons e rest ih =>
      cases e with
      | nil => simp [checkPatternEntries, isGoodPatternEntry]
      | cons a t =>
          cases t with
          | nil => simp [checkPatternEntries, isGoodPatternEntry]
          | cons b t2 =>
              cases t2 with
              | nil =>
                  by_cases hs : a ∈ ns <;> by_cases hp : b ∈ ps <;>
                    simp [checkPatternEntries, isGoodPatternEntry, hs, hp,
                      ih]
              | cons x t3 =>
                  simp [checkPatternEntries, isGoodPatternEntry]

theorem checkPatternEntries_head_bad_spool (ns ps : List String)
    (sp pl : String) (rest : List (List String))
    (h : ns.contains sp = false) :
    checkPatternEntries ns ps ([sp, pl] :: rest) =
      Except.error ValidationError.unknownSpoolReference := by
  have h' : sp ∉ ns := by simpa using h
  simp [checkPatternEntries, h']

theorem checkPatternEntries_head_bad_place (ns ps : List String)
    (sp pl : String) (rest : List (List String))
    (h1 : ns.contains sp = true) (h2 : ps.contains pl = false) :
    checkPatternEntries ns ps ([sp, pl] :: rest) =
      Except.error ValidationError.unknownPlaceReference := by
  have h1' : sp ∈ ns := by simpa using h1
  have h2' : pl ∉ ps := by simpa using h2
  simp [checkPatternEntries, h1', h2']

/-- C7: configuration validation fails with `InvalidSpoolName` whenever
some declared spool identifier is not exactly one uppercase letter; with
`InvalidPlaceName` whenever the spool names are acceptable but some place
identifier is not exactly one digit; with `UnknownSpoolReference`
(respectively `UnknownPlaceReference`) at the first pattern entry
referencing an undeclared spool (respectively place); with
`InvalidRepeatCount` whenever everything earlier is acceptable but the
repeat count is negative; and it succeeds on every configuration passing
all of these checks (the checker is a pure function of the
configuration). -/
theorem check_config_validation (c : Config) :
    (∀ ns, c.spool_names = some ns → ns.all isGoodSpoolName = false →
      check_config_for_inconsistencies c =
        Except.error ValidationError.invalidSpoolName) ∧
    (∀ ns pls, c.spool_names = some ns → ns.all isGoodSpoolName = true →
      c.places = some pls →
      (pls.map Prod.fst).all isGoodPlaceName = false →
      check_config_for_inconsistencies c =
        Except.error ValidationError.invalidPlaceName) ∧
    (∀ ns pls pre sp pl rest, c.spool_names = some ns →
      ns.all isGoodSpoolName = true → c.places = some pls →
      (pls.map Prod.fst).all isGoodPlaceName = true →
      c.pattern = some (pre ++ [sp, pl] :: rest) →
      pre.all (isGoodPatternEntry ns (pls.map Prod.fst)) = true →
      ns.contains sp = false →
      check_config_for_inconsistencies c =
        Except.error ValidationError.unknownSpoolReference) ∧
    (∀ ns pls pre sp pl rest, c.spool_names = some ns →
      ns.all isGoodSpoolName = true → c.places = some pls →
      (pls.map Prod.fst).all isGoodPlaceName = true →
      c.pattern = some (pre ++ [sp, pl] :: rest) →
      pre.all (isGoodPatternEntry ns (pls.map Prod.fst)) = true →
      ns.contains sp = true → (pls.map Prod.fst).contains pl = false →
      check_config_for_inconsistencies c =
        Except.error ValidationError.unknownPlaceReference) ∧
    (∀ ns pls r, c.spool_names = some ns →
      ns.all isGoodSpoolName = true → c.places = some pls →
      (pls.map Prod.fst).all isGoodPlaceName = true →
      goodPattern ns (pls.map Prod.fst) c.pattern = true →
      c.repeats = some r → r < 0 →
      check_config_for_inconsistencies c =
        Except.error ValidationError.invalidRepeatCount) ∧
    (∀ ns pls, c.spool_names = some ns →
      ns.all isGoodSpoolName = true → c.places = some pls →
      (pls.map Prod.fst).all isGoodPlaceName = true →
      goodPattern ns (pls.map Prod.fst) c.pattern = true →
      goodRepeats c.repeats = true →
      check_config_for_inconsistencies c = Except.ok ()) := by
  refine ⟨?_, ?_, ?_, ?_, ?_, ?_⟩
  · intro ns hsn hbad
    simp only [check_config_for_inconsistencies, hsn,
      checkSpoolNames_err ns hbad]
  · intro ns pls hsn hgs hpl hbad
    simp only [check_config_for_inconsistencies, hsn, hpl,
      checkSpoolNames_ok ns hgs, checkPlaceNames_err _ hbad]
  · intro ns pls pre sp pl rest hsn hgs hpl hgp hpat hpre hsp
    simp only [check_config_for_inconsistencies, hsn, hpl, hpat,
      checkSpoolNames_ok ns hgs, checkPlaceNames_ok _ hgp,
      checkPatternEntries_skip_good _ _ pre _ hpre,
      checkPatternEntries_head_bad_spool _ _ sp pl rest hsp]
  · intro ns pls pre sp pl rest hsn hgs hpl hgp hpat hpre hsp hpl2
    simp only [check_config_for_inconsistencies, hsn, hpl, hpat,
      checkSpoolNames_ok ns hgs, checkPlaceNames_ok _ hgp,
      checkPatternEntries_skip_good _ _ pre _ hpre,
      checkPatternEntries_head_bad_place _ _ sp pl rest hsp hpl2]
  · intro ns pls r hsn hgs hpl hgp hgpat hr hneg
    have hinner : (match c.pattern with
        | some pat => checkPatternEntries ns (pls.map Prod.fst) pat
        | none => Except.ok ()) = Except.ok () := by
      cases hp : c.pattern with
      | none => rfl
      | some pat =>
          rw [hp] at hgpat
          simp only [goodPattern] at hgpat
          exact (checkPatternEntries_ok_iff _ _ pat).mpr hgpat
    simp only [check_config_for_inconsistencies, hsn, hpl, hr,
      checkSpoolNames_ok ns hgs, checkPlaceNames_ok _ hgp, hinner]
    rw [if_pos hneg]
  · intro ns pls hsn hgs hpl hgp hgpat hgr
    have hinner : (match c.pattern with
        | some pat => checkPatternEntries ns (pls.map Prod.fst) pat
        | none => Except.ok ()) = Except.ok () := by
      cases hp : c.pattern with
      | none => rfl
      | some pat =>
          rw [hp] at hgpat
          simp only [goodPattern] at hgpat
          exact (checkPatternEntries_ok_iff _ _ pat).mpr hgpat
    have hrep : (match c.repeats with
        | some r =>
            if r < 0 then Except.error ValidationError.invalidRepeatCount
            else Except.ok ()
        | none => Except.ok ()) = Except.ok () := by
      cases hr : c.repeats with
      | none => rfl
      | some r =>
          rw [hr] at hgr
          simp only [goodRepeats, decide_eq_true_eq] at hgr
          exact if_neg (not_lt.mpr hgr)
    simp only [check_config_for_inconsistencies, hsn, hpl,
      checkSpoolNames_ok ns hgs, checkPlaceNames_ok _ hgp, hinner, hrep]

/-- A configuration with the multi-character spool name of the spec's
test list. -/
def cfgBadSpool : Config :=
  { spool_names := some ["Ab"], places := some [("1", none)],
    pattern := none, repeats := none }

/-- A configuration with the non-digit place name of the spec's test
list. -/
def cfgBadPlace : Config :=
  { spool_names := some ["A"], places := some [("x", none)],
    pattern := none, repeats := none }

/-- A configuration whose pattern references the undeclared spool `Z`. -/
def cfgUnknownSpool : Config :=
  { spool_names := some ["A"], places := some [("1", none)],
    pattern := some [["Z", "1"]], repeats := none }

/-- A configuration whose pattern references the undeclared place `9`. -/
def cfgUnknownPlace : Config :=
  { spool_names := some ["A"], places := some [("1", none)],
    pattern := some [["A", "9"]], repeats := none }

/-- A configuration with a negative repeat count. -/
def cfgNegativeRepeats : Config :=
  { spool_names := some ["A"], places := some [("1", none)],
    pattern := some [["A", "1"]], repeats := some (-1) }

/-- A fully valid configuration. -/
def cfgValid : Config :=
  { spool_names := some ["A", "B"],
    places := some [("1", none), ("2", none)],
    pattern := some [["A", "1"], ["B", "2"]], repeats := some 2 }

/-- Witness for C7 on the spec's own test list: `"Ab"`, `"x"`, the
undeclared spool `"Z"`, the undeclared place `"9"`, `repeats = -1`, and a
valid configuration. -/
theorem check_config_validation_witness :
    check_config_for_inconsistencies cfgBadSpool =
      Except.error ValidationError.invalidSpoolName ∧
    check_config_for_inconsistencies cfgBadPlace =
      Except.error ValidationError.invalidPlaceName ∧
    check_config_for_inconsistencies cfgUnknownSpool =
      Except.error ValidationError.unknownSpoolReference ∧
    check_config_for_inconsistencies cfgUnknownPlace =
      Except.error ValidationError.unknownPlaceReference ∧
    check_config_for_inconsistencies cfgNegativeRepeats =
      Except.error ValidationError.invalidRepeatCount ∧
    check_config_for_inconsistencies cfgValid = Except.ok () := by
  refine ⟨?_, ?_, ?_, ?_, ?_, ?_⟩
  · exact (check_config_validation cfgBadSpool).1 ["Ab"] rfl (by decide)
  · exact (check_config_validation cfgBadPlace).2.1 ["A"] [("x", none)]
      rfl (by decide) rfl (by decide)
  · exact (check_config_validation cfgUnknownSpool).2.2.1 ["A"]
      [("1", none)] [] "Z" "1" [] rfl (by decide) rfl (by decide) rfl
      (by decide) (by decide)
  · exact (check_config_validation cfgUnknownPlace).2.2.2.1 ["A"]
      [("1", none)] [] "A" "9" [] rfl (by decide) rfl (by decide) rfl
      (by decide) (by decide) (by decide)
  · exact (check_config_validation cfgNegativeRepeats).2.2.2.2.1 ["A"]
      [("1", none)] (-1) rfl (by decide) rfl (by decide) (by decide) rfl
      (by decide)
  · exact (check_config_validation cfgValid).2.2.2.2.2 ["A", "B"]
      [("1", none), ("2", none)] rfl (by decide) rfl (by decide)
      (by decide) (by decide)

/-! ### The pattern runner (`src/braid_control.py`, SPACE handler) -/

/-- Place table of the runner: the `places` mapping of `config.yaml` as
loaded by `braid_control.py`, from place identifiers to optional learned
positions. -/
abbrev PlaceTable := List (String × Option Pos)

/-- The `all_places_set` precondition of the SPACE handler. -/
def placesAllSet (places : PlaceTable) : Bool :=
  places.all (fun kv => kv.2.isSome)

/-- The `all_spools_set` precondition of the SPACE handler. -/
def spoolsAllSet (s : Braider) : Bool :=
  s.spools.all (fun kv => kv.2.isSome)

/-- One pattern step: `brdr.grab(spool)` followed by
`brdr.move_to(*places[place])`.  A place missing from the table or still
unset would raise in Python; both are unreachable behind validation and
the all-set checks and are modelled as skipping the move. -/
def runStep (s : Braider) (places : PlaceTable) (spool place : String) :
    Braider × List Cmd :=
  let r1 := s.grab spool
  match lookupKey places place with
  | some (some p) =>
      let r2 := r1.1.move_to p.1 p.2
      (r2.1, r1.2 ++ r2.2)
  | _ => r1

/-- The inner `for spool, place in config["pattern"]` loop; the third
component lists the executed (spool, place) steps in order. -/
def runPass (s : Braider) (places : PlaceTable) :
    List (String × String) → Braider × List Cmd × List (String × String)
  | [] => (s, [], [])
  | (spool, place) :: rest =>
      let r1 := runStep s places spool place
      let r2 := runPass r1.1 places rest
      (r2.1, r1.2 ++ r2.2.1, (spool, place) :: r2.2.2)

/-- The outer `for r in range(repeats)` loop. -/
def runRepeats (s : Braider) (places : PlaceTable)
    (pattern : List (String × String)) :
    Nat → Braider × List Cmd × List (String × String)
  | 0 => (s, [], [])
  | n + 1 =>
      let r1 := runPass s places pattern
      let r2 := runRepeats r1.1 places pattern n
      (r2.1, r1.2.1 ++ r2.2.1, r1.2.2 ++ r2.2.2)

/-- The SPACE handler: refuse unless every place and every spool has a
learned position, then run the pattern `config.get("repeats", 1)` times;
`range` of a negative count is empty, hence `Int.toNat`. -/
def runPattern (s : Braider) (places : PlaceTable)
    (pattern : List (String × String)) (repeats : Option Int) :
    Braider × List Cmd × List (String × String) :=
  if placesAllSet places && spoolsAllSet s then
    runRepeats s places pattern (repeats.getD 1).toNat
  else (s, [], [])

theorem runPass_steps (places : PlaceTable)
    (pattern : List (String × String)) (s : Braider) :
    (runPass s places pattern).2.2 = pattern := by
  induction pattern generalizing s with
  | nil => rfl
  | cons step rest ih =>
      obtain ⟨spool, place⟩ := step
      simp only [runPass, ih]

theorem runRepeats_steps (places : PlaceTable)
    (pattern : List (String × String)) (n : Nat) (s : Braider) :
    (runRepeats s places pattern n).2.2 =
      (List.replicate n pattern).flatten := by
  induction n generalizing s with
  | zero => rfl
  | succ m ih =>
      simp only [runRepeats, runPass_steps, ih, List.replicate_succ,
        List.flatten_cons]

/-- C8: the SPACE handler performs no grab, no move and no hardware
command when some place or some spool lacks a learned position; when all
are learned it executes exactly `repeats.getD 1` (default 1) sequential
passes over the pattern in order, each step a grab-then-move pair. -/
theorem pattern_runner_spec (s : Braider) (places : PlaceTable)
    (pattern : List (String × String)) (repeats : Option Int) :
    ((placesAllSet places = false ∨ spoolsAllSet s = false) →
      runPattern s places pattern repeats = (s, [], [])) ∧
    (placesAllSet places = true → spoolsAllSet s = true →
      (runPattern s places pattern repeats).2.2 =
        (List.replicate (repeats.getD 1).toNat pattern).flatten) := by
  constructor
  · intro h
    rcases h with h | h <;> simp [runPattern, h]
  · intro h1 h2
    simp [runPattern, h1, h2, runRepeats_steps]

/-- A controller state with both spools learned, for the runner
witness. -/
def runnerBraider : Braider :=
  { width := 200, height := 200, engage_travel_distance := 15,
    position := (0, 0), magnet_is_engaged := false,
    spools := [("A", some ((10 : Rat), (10 : Rat))),
               ("B", some ((20 : Rat), (20 : Rat)))],
    currently_grabbed_spool := none }

/-- A controller state with an unlearned spool, for the refusal part of
the runner witness. -/
def unsetBraider : Braider :=
  { runnerBraider with spools := [("A", none)] }

/-- A place table with both places learned. -/
def runnerPlaces : PlaceTable :=
  [("1", some ((30 : Rat), (30 : Rat))), ("2", some ((40 : Rat), (40 : Rat)))]

/-- Witness for C8: with everything learned, `RepeatCount = 2` over the
pattern (A,1), (B,2) executes exactly the four steps A→1, B→2, A→1, B→2
in order; with an unlearned spool the handler does nothing. -/
theorem pattern_runner_spec_witness :
    (runPattern runnerBraider runnerPlaces [("A", "1"), ("B", "2")]
      (some 2)).2.2 =
      [("A", "1"), ("B", "2"), ("A", "1"), ("B", "2")] ∧
    runPattern unsetBraider runnerPlaces [("A", "1")] (some 2) =
      (unsetBraider, [], []) := by
  constructor
  · rw [(pattern_runner_spec runnerBraider runnerPlaces
      [("A", "1"), ("B", "2")] (some 2)).2 (by decide) (by decide)]
    decide
  · exact (pattern_runner_spec unsetBraider runnerPlaces [("A", "1")]
      (some 2)).1 (Or.inr (by decide))

/-! ### Live reload (spec §4.3; no reload exists under src/) -/

/-- Modelled from the spec: the currently active configuration that a
live reload replaces atomically — spool identifier set, place table,
pattern and repeat count (§4.3).  The repository sources contain no
reload; this and `reload` below follow the spec text. -/
structure ActiveConfig where
  spool_names : List String
  places : PlaceTable
  pattern : List (List String)
  repeats : Option Int
deriving DecidableEq, Repr

/-- Modelled from the spec: reasons a reload is rejected (§4.1, §4.3). -/
inductive ReloadError where
  | invalidConfig (e : ValidationError) : ReloadError
  | spoolSetChanged : ReloadError
deriving DecidableEq, Repr

/-- Two identifier lists declare the same set of identifiers. -/
def sameSpoolSet (a b : List String) : Bool :=
  a.all (fun n => b.contains n) && b.all (fun n => a.contains n)

/-- Modelled from the spec: a live reload re-validates the candidate
configuration (§4.1) and additionally requires the spool identifier set
to be unchanged; on success it atomically replaces the active pattern,
place table and repeat count, on failure the previous configuration
remains active and the reload is a no-op (§4.3). -/
def reload (active : ActiveConfig) (candidate : Config) :
    ActiveConfig × Option ReloadError :=
  match check_config_for_inconsistencies candidate with
  | Except.error e => (active, some (ReloadError.invalidConfig e))
  | Except.ok _ =>
      match candidate.spool_names with
      | none =>
          (active,
           some (ReloadError.invalidConfig ValidationError.missingSpools))
      | some ns =>
          if sameSpoolSet ns active.spool_names then
            ({ spool_names := ns,
               places := candidate.places.getD [],
               pattern := candidate.pattern.getD [],
               repeats := candidate.repeats }, none)
          else (active, some ReloadError.spoolSetChanged)

/-- C9: a reload whose otherwise-valid candidate declares a different
spool identifier set is rejected as `SpoolSetChanged`, and the previously
active pattern, place table and repeat count remain in effect
unchanged. -/
theorem reload_spool_set_changed (active : ActiveConfig) (c : Config)
    (ns : List String)
    (hok : check_config_for_inconsistencies c = Except.ok ())
    (hsn : c.spool_names = some ns)
    (hdiff : sameSpoolSet ns active.spool_names = false) :
    reload active c = (active, some ReloadError.spoolSetChanged) := by
  simp only [reload, hok, hsn]
  rw [if_neg (by simp [hdiff])]

/-- An active configuration over the single spool `B`, for the reload
witness. -/
def activeSample : ActiveConfig :=
  { spool_names := ["B"], places := [("1", some ((1 : Rat), (1 : Rat)))],
    pattern := [["B", "1"]], repeats := some 3 }

/-- Witness for C9: reloading the valid candidate declaring spools A and
B over an active configuration declaring only B is rejected as
`SpoolSetChanged`, keeping the active configuration. -/
theorem reload_spool_set_changed_witness :
    reload activeSample cfgValid =
      (activeSample, some ReloadError.spoolSetChanged) :=
  reload_spool_set_changed activeSample cfgValid ["A", "B"] rfl rfl
    (by rfl)

/-! ### The inheritance-based Plotter/Winder variant
(`src/manual_control.py`) and its equivalence with `Braider` (C10) -/

/-- Tracked state of `Plotter`: configuration and mirrored physical
state, without any spool awareness. -/
structure Plotter where
  width : Rat
  height : Rat
  engage_travel : Rat
  position : Pos
  magnet_is_engaged : Bool
deriving DecidableEq, Repr

/-- Constructor plus `init` of `Plotter` (same command sequence as
`Braider.init`; the state updates are ordered differently in the Python
source but the post-state is the same). -/
def mkPlotter (width height engage_travel : Rat) : Plotter × List Cmd :=
  ({ width := width, height := height, engage_travel := engage_travel,
     position := (0, 0), magnet_is_engaged := false },
   [Cmd.setAbsolute, Cmd.setFeedRate, Cmd.homeZ, Cmd.homeXY])

namespace Plotter

/-- `Plotter._clip_position`. -/
def clip_position (s : Plotter) (x y : Rat) : Pos :=
  (max 0 (min s.width x), max 0 (min s.height y))

/-- `Plotter.move_to`. -/
def move_to (s : Plotter) (x y : Rat) : Plotter × List Cmd :=
  let p := s.clip_position x y
  ({ s with position := p }, [Cmd.moveXY p.1 p.2])

/-- `Plotter.beep`. -/
def beep (s : Plotter) (frequency duration : Rat) : Plotter × List Cmd :=
  (s, [Cmd.tone frequency duration])

/-- `Plotter.engage_magnet`. -/
def engage_magnet (s : Plotter) : Plotter × List Cmd :=
  if s.magnet_is_engaged then (s, [])
  else ({ s with magnet_is_engaged := true }, [Cmd.moveZ s.engage_travel])

/-- `Plotter.disengage_magnet`: note the Python source sends the line
`G28 Za` here, unlike `Braider`; the tracked state transition is the
same. -/
def disengage_magnet (s : Plotter) : Plotter × List Cmd :=
  if s.magnet_is_engaged then
    ({ s with magnet_is_engaged := false }, [Cmd.homeZa])
  else (s, [])

end Plotter

/-- Tracked state of `Winder`, the spool-aware subclass of `Plotter`. -/
structure Winder extends Plotter where
  spools : List (String × Option Pos)
  grabbed_spool : Option String
deriving DecidableEq, Repr

/-- Constructor of `Winder`: `super().__init__(serial, width, height)`
leaves the engage travel at the `Plotter` default of 15; the spool table
is fixed to R, G, B, all unlearned. -/
def mkWinder (width height : Rat) : Winder × List Cmd :=
  let r := mkPlotter width height 15
  ({ toPlotter := r.1,
     spools := [("R", none), ("G", none), ("B", none)],
     grabbed_spool := none }, r.2)

namespace Winder

/-- `move_to` as inherited from `Plotter`. -/
def move_to (w : Winder) (x y : Rat) : Winder × List Cmd :=
  let r := w.toPlotter.move_to x y
  ({ w with toPlotter := r.1 }, r.2)

/-- `move_to_relative` as inherited. -/
def move_to_relative (w : Winder) (x y : Rat) : Winder × List Cmd :=
  w.move_to (w.position.1 + x) (w.position.2 + y)

/-- `move_left` as inherited. -/
def move_left (w : Winder) (distance : Rat) : Winder × List Cmd :=
  w.move_to_relative (-distance) 0

/-- `move_right` as inherited. -/
def move_right (w : Winder) (distance : Rat) : Winder × List Cmd :=
  w.move_to_relative distance 0

/-- `move_up` as inherited. -/
def move_up (w : Winder) (distance : Rat) : Winder × List Cmd :=
  w.move_to_relative 0 distance

/-- `move_down` as inherited. -/
def move_down (w : Winder) (distance : Rat) : Winder × List Cmd :=
  w.move_to_relative 0 (-distance)

/-- `beep` as inherited. -/
def beep (w : Winder) (frequency duration : Rat) : Winder × List Cmd :=
  let r := w.toPlotter.beep frequency duration
  ({ w with toPlotter := r.1 }, r.2)

/-- `engage_magnet` as inherited. -/
def engage_magnet (w : Winder) : Winder × List Cmd :=
  let r := w.toPlotter.engage_magnet
  ({ w with toPlotter := r.1 }, r.2)

/-- `Winder.disengage_magnet`: the override calls the inherited method
and then performs the release-learning on the spool table. -/
def disengage_magnet (w : Winder) : Winder × List Cmd :=
  let r := w.toPlotter.disengage_magnet
  let w1 : Winder := { w with toPlotter := r.1 }
  match w1.grabbed_spool with
  | some sp =>
      ({ w1 with spools := setKey w1.spools sp (some w1.position)
                 grabbed_spool := none }, r.2)
  | none => (w1, r.2)

/-- `Winder.grab`: textually the same algorithm as `Braider.grab`;
`self.disengage_magnet()` dispatches to the `Winder` override. -/
def grab (w : Winder) (spool : String) : Winder × List Cmd :=
  match lookupKey w.spools spool with
  | none => (w, [])
  | some none =>
      match w.grabbed_spool with
      | none =>
          let w1 : Winder :=
            { w with spools := setKey w.spools spool (some w.position) }
          let r2 := w1.engage_magnet
          let r3 := r2.1.beep 440 200
          let r4 := r3.1.beep 640 200
          ({ r4.1 with grabbed_spool := some spool },
           r2.2 ++ r3.2 ++ r4.2)
      | some _ =>
          let r1 := w.beep 660 200
          let r2 := r1.1.beep 660 200
          (r2.1, r1.2 ++ r2.2)
  | some (some p) =>
      let r1 := w.disengage_magnet
      let r2 := r1.1.move_to p.1 p.2
      let r3 := r2.1.engage_magnet
      let r4 := r3.1.beep 440 200
      ({ r4.1 with grabbed_spool := some spool },
       r1.2 ++ r2.2 ++ r3.2 ++ r4.2)

end Winder

/-- Dispatch one operation on a `Winder`. -/
def stepW (w : Winder) : Op → Winder × List Cmd
  | Op.move_to x y => w.move_to x y
  | Op.move_to_relative x y => w.move_to_relative x y
  | Op.move_left d => w.move_left d
  | Op.move_right d => w.move_right d
  | Op.move_up d => w.move_up d
  | Op.move_down d => w.move_down d
  | Op.engage => w.engage_magnet
  | Op.disengage => w.disengage_magnet
  | Op.grab sp => w.grab sp
  | Op.beep f d => w.beep f d

/-- Run a sequence of operations on a `Winder`, keeping only the state. -/
def runW (w : Winder) : List Op → Winder
  | [] => w
  | op :: rest => runW (stepW w op).1 rest

/-- The `Braider` state corresponding to a `Winder` state: the same
tracked fields under `Braider`'s field names. -/
def ofW (w : Winder) : Braider :=
  { width := w.width, height := w.height,
    engage_travel_distance := w.engage_travel,
    position := w.position, magnet_is_engaged := w.magnet_is_engaged,
    spools := w.spools, currently_grabbed_spool := w.grabbed_spool }

theorem ofW_move_to (w : Winder) (x y : Rat) :
    ((ofW w).move_to x y).1 = ofW (w.move_to x y).1 := rfl

theorem ofW_beep (w : Winder) (f d : Rat) :
    ((ofW w).beep f d).1 = ofW (w.beep f d).1 := rfl

theorem ofW_engage (w : Winder) :
    (ofW w).engage_magnet.1 = ofW w.engage_magnet.1 := by
  by_cases hm : w.magnet_is_engaged = true <;>
    simp [Braider.engage_magnet, Winder.engage_magnet,
      Plotter.engage_magnet, ofW, hm]

theorem ofW_disengage (w : Winder) :
    (ofW w).disengage_magnet.1 = ofW w.disengage_magnet.1 := by
  by_cases hm : w.magnet_is_engaged = true <;>
    cases hg : w.grabbed_spool <;>
      simp [Braider.disengage_magnet, Winder.disengage_magnet,
        Plotter.disengage_magnet, ofW, hm, hg]

theorem ofW_grab (w : Winder) (sp : String) :
    ((ofW w).grab sp).1 = ofW (w.grab sp).1 := by
  cases hl : lookupKey w.spools sp with
  | none => simp [Braider.grab, Winder.grab, ofW, hl]
  | some v =>
      cases v with
      | none =>
          cases hg : w.grabbed_spool with
          | none =>
              simp only [Braider.grab, Winder.grab, ofW, hl, hg, beep_fst,
                engage_magnet_fst, Winder.beep, Winder.engage_magnet,
                Plotter.engage_magnet, Plotter.beep]
              by_cases hm : w.magnet_is_engaged = true <;> simp [hm]
          | some t =>
              simp [Braider.grab, Winder.grab, ofW, hl, hg, beep_fst,
                Braider.beep, Winder.beep, Plotter.beep]
      | some p =>
          simp only [Braider.grab, Winder.grab, hl,
            show (ofW w).spools = w.spools from rfl, beep_fst,
            ofW_disengage, ofW_move_to, ofW_engage, Winder.beep,
            Plotter.beep]
          rfl

theorem stepBW (w : Winder) (op : Op) :
    (stepB (ofW w) op).1 = ofW (stepW w op).1 := by
  cases op with
  | move_to x y => rfl
  | move_to_relative x y => rfl
  | move_left d => rfl
  | move_right d => rfl
  | move_up d => rfl
  | move_down d => rfl
  | beep f d => rfl
  | engage => exact ofW_engage w
  | disengage => exact ofW_disengage w
  | grab sp => exact ofW_grab w sp

theorem runBW (w : Winder) (ops : List Op) :
    runB (ofW w) ops = ofW (runW w ops) := by
  induction ops generalizing w with
  | nil => rfl
  | cons op rest ih =>
      show runB (stepB (ofW w) op).1 rest = _
      rw [stepBW]
      exact ih (stepW w op).1

/-- C10: constructed over the same braiding area, the same engage travel
(the `Plotter` default 15) and the spool set R, G, B, the `Braider` class
and the `Plotter`/`Winder` variant are state-equivalent: after every
sequence of the shared operations both track the same position, magnet
flag, spool table and currently grabbed spool. -/
theorem braider_winder_state_equivalent (w h : Rat) (ops : List Op) :
    (runB (mkBraider w h 15 ["R", "G", "B"]).1 ops).position =
      (runW (mkWinder w h).1 ops).position ∧
    (runB (mkBraider w h 15 ["R", "G", "B"]).1 ops).magnet_is_engaged =
      (runW (mkWinder w h).1 ops).magnet_is_engaged ∧
    (runB (mkBraider w h 15 ["R", "G", "B"]).1 ops).spools =
      (runW (mkWinder w h).1 ops).spools ∧
    (runB (mkBraider w h 15 ["R", "G", "B"]).1 ops).currently_grabbed_spool =
      (runW (mkWinder w h).1 ops).grabbed_spool := by
  have hinit : (mkBraider w h 15 ["R", "G", "B"]).1 = ofW (mkWinder w h).1 :=
    rfl
  rw [hinit, runBW]
  exact ⟨rfl, rfl, rfl, rfl⟩

end Braid



